import Mathlib

/-!
# Verification of the Craigslist car-listing aggregator

A shallow embedding, in Lean 4, of the parts of the repository that the
frozen claims are about:

* `utils.py` — `parse_posting_time` (timestamp normalisation);
* `database_manager.py` — `add_listings`, `update_market_analysis`,
  `_extract_year`, `_extract_make`, `_extract_model`;
* `app_db.py` — the deal classification of `get_recent_listings`;
* `craigslist_scraper.py` — the per-record dedup/keyword filter;
* `sheets_manager.py` — `generate_kbb_lookup_url`.

Modelling conventions: Python strings are `String` / `List Char` (ASCII
character classes; `str.lower`, `str.title`, `str.strip` are modelled for
ASCII, which covers every string the source manipulates); Python `float`
values arising from price strings are modelled as exact rationals `ℚ`
(Python `float(...)` restricted to finite decimal literals — the `inf` /
`nan` literals and underscore digit separators are not modelled);
`datetime` values are records of numeric fields; the wall clock
(`datetime.now()`) is passed in as an explicit `currentYear` parameter.
-/

/-- Read a single decimal digit character. -/
def readDigit (c : Char) : Option Nat :=
  if '0' ≤ c ∧ c ≤ '9' then some (c.toNat - 48) else none

/-- Render a single decimal digit (values `≥ 9` clamp to `'9'`; callers only
use values `< 10`). -/
def digitChar (k : Nat) : Char :=
  Char.ofNat (48 + min k 9)

/-- Numeric value of a run of decimal digit characters (most significant first). -/
def digitsVal (ds : List Char) : Nat :=
  ds.foldl (fun a c => 10 * a + (readDigit c).getD 0) 0

/-- Substring occurrence on character lists (Python's `needle in hay`). -/
def subOccurs : List Char → List Char → Bool
  | needle, [] => needle.isEmpty
  | needle, c :: t => needle.isPrefixOf (c :: t) || subOccurs needle t

/-- Python's substring test `needle in hay` (`str.__contains__`). -/
def pyIn (needle hay : String) : Bool :=
  subOccurs needle.toList hay.toList

/-- Python `s.replace(pat, '')` for a one-character pattern `pat` (the only
shape of `str.replace` the source uses): delete every occurrence of the
character. -/
def pyReplaceDel (pat : Char) (s : String) : String :=
  String.mk (s.toList.filter (fun c => c ≠ pat))

/-- Python `float(s)` on finite decimal literals, as an exact rational:
optional surrounding whitespace, optional sign, `digits[.digits]` or
`.digits`, optional decimal exponent.  (`inf`/`nan` literals and `_`
digit separators are not modelled.) -/
def pyFloat (s : String) : Option ℚ :=
  let cs := ((s.toList.dropWhile Char.isWhitespace).reverse.dropWhile
    Char.isWhitespace).reverse
  match cs with
  | '+' :: rest => pyFloatUnsigned rest
  | '-' :: rest => (pyFloatUnsigned rest).map Neg.neg
  | rest => pyFloatUnsigned rest
where
  /-- The unsigned part of a Python float literal. -/
  pyFloatUnsigned (cs : List Char) : Option ℚ :=
    let intPart := cs.takeWhile Char.isDigit
    let rest1 := cs.dropWhile Char.isDigit
    let hasDot := match rest1 with
      | '.' :: _ => true
      | _ => false
    let fracPart := if hasDot then rest1.tail.takeWhile Char.isDigit else []
    let rest2 := if hasDot then rest1.tail.dropWhile Char.isDigit else rest1
    if intPart = [] ∧ fracPart = [] then none
    else
      let mant : ℚ :=
        if fracPart = [] then (digitsVal intPart : ℚ)
        else (digitsVal (intPart ++ fracPart) : ℚ) / (10 : ℚ) ^ fracPart.length
      match rest2 with
      | [] => some mant
      | e :: rest3 =>
        if e = 'e' ∨ e = 'E' then
          let signedDigits : Bool × List Char := match rest3 with
            | '+' :: ds => (false, ds)
            | '-' :: ds => (true, ds)
            | ds => (false, ds)
          if signedDigits.2 ≠ [] ∧ signedDigits.2.all Char.isDigit then
            some (if signedDigits.1 then mant / (10 : ℚ) ^ digitsVal signedDigits.2
                  else mant * (10 : ℚ) ^ digitsVal signedDigits.2)
          else none
        else none

/-- `price.replace('$', '').replace(',', '')` followed by `float(...)`:
the price-string parse used by `update_market_analysis` and
`get_recent_listings`. -/
def parseListingPrice (s : String) : Option ℚ :=
  pyFloat (pyReplaceDel ',' (pyReplaceDel '$' s))

/-!
## `app_db.py` — deal classification (`get_recent_listings`)

The body of the price-comparison block: once a listing's price has been
parsed to a number and its `(make, model)` key has matched a stored
`MarketAnalysis` row, the price is compared against the row's `avg_price`.
-/

/-- The deal-status banding of `get_recent_listings` (`app_db.py`):
`price < avg*0.85` → Great Deal; `price < avg*0.95` → Good Deal;
`price < avg*1.05` → Fair Price; else Above Market. -/
def dealStatus (price avgPrice : ℚ) : String :=
  if price < avgPrice * 0.85 then "Great Deal"
  else if price < avgPrice * 0.95 then "Good Deal"
  else if price < avgPrice * 1.05 then "Fair Price"
  else "Above Market"

/-- The full `try`-block of `get_recent_listings`: parse the raw price
string; on `ValueError`/`AttributeError` the status is `"Price Unknown"`. -/
def dealStatusOfListing (priceStr : String) (avgPrice : ℚ) : String :=
  match parseListingPrice priceStr with
  | some p => dealStatus p avgPrice
  | none => "Price Unknown"

/-!  ### Claim C1 -/

/-- **C1, counterexample.**  The claim says the Fair Price band's upper
boundary is inclusive (`price ≤ 1.05*avg` → Fair Price).  The code uses
strict `<`:  at `price = 21000`, `avg = 20000` we have
`price = 1.05*avg` exactly, yet the code classifies it Above Market. -/
theorem dealStatus_fair_upper_not_inclusive :
    dealStatus 21000 20000 = "Above Market" ∧
    (21000 : ℚ) ≤ 20000 * 1.05 ∧
    dealStatus 21000 20000 ≠ "Fair Price" := by
  have h : dealStatus 21000 20000 = "Above Market" := by
    unfold dealStatus
    norm_num
  refine ⟨h, by norm_num, by rw [h]; decide⟩

/-- **C1 (amended).**  For every listing whose price parses to `p`, compared
against a nonnegative aggregate average `avg`, the deal classification is:
Great Deal iff `p < 0.85*avg`; Good Deal iff `0.85*avg ≤ p < 0.95*avg`;
Fair Price iff `0.95*avg ≤ p < 1.05*avg`; Above Market iff
`1.05*avg ≤ p`.  Every band boundary is strict `<` against the band below
— including the Fair Price upper bound, which the original claim stated
as `≤`. -/
theorem dealStatus_bands (priceStr : String) (p avg : ℚ)
    (hp : parseListingPrice priceStr = some p) (havg : 0 ≤ avg) :
    (dealStatusOfListing priceStr avg = "Great Deal" ↔ p < avg * 0.85) ∧
    (dealStatusOfListing priceStr avg = "Good Deal" ↔ avg * 0.85 ≤ p ∧ p < avg * 0.95) ∧
    (dealStatusOfListing priceStr avg = "Fair Price" ↔ avg * 0.95 ≤ p ∧ p < avg * 1.05) ∧
    (dealStatusOfListing priceStr avg = "Above Market" ↔ avg * 1.05 ≤ p) := by
  have hd : dealStatusOfListing priceStr avg = dealStatus p avg := by
    simp [dealStatusOfListing, hp]
  have t1 : avg * 0.85 ≤ avg * 0.95 :=
    mul_le_mul_of_nonneg_left (by norm_num) havg
  have t2 : avg * 0.95 ≤ avg * 1.05 :=
    mul_le_mul_of_nonneg_left (by norm_num) havg
  rw [hd]
  unfold dealStatus
  split_ifs with h1 h2 h3
  · refine ⟨iff_of_true rfl h1, iff_of_false (by decide) ?_,
      iff_of_false (by decide) ?_, iff_of_false (by decide) ?_⟩
    · rintro ⟨ha, -⟩; linarith
    · rintro ⟨ha, -⟩; linarith
    · intro ha; linarith
  · rw [not_lt] at h1
    refine ⟨iff_of_false (by decide) ?_, iff_of_true rfl ⟨h1, h2⟩,
      iff_of_false (by decide) ?_, iff_of_false (by decide) ?_⟩
    · intro ha; linarith
    · rintro ⟨ha, -⟩; linarith
    · intro ha; linarith
  · rw [not_lt] at h1 h2
    refine ⟨iff_of_false (by decide) ?_, iff_of_false (by decide) ?_,
      iff_of_true rfl ⟨h2, h3⟩, iff_of_false (by decide) ?_⟩
    · intro ha; linarith
    · rintro ⟨-, hb⟩; linarith
    · intro ha; linarith
  · rw [not_lt] at h1 h2 h3
    refine ⟨iff_of_false (by decide) ?_, iff_of_false (by decide) ?_,
      iff_of_false (by decide) ?_, iff_of_true rfl h3⟩
    · intro ha; linarith
    · rintro ⟨-, hb⟩; linarith
    · rintro ⟨-, hb⟩; linarith

/-- **C1, witness.**  A `$17,500` listing against a `20000` average parses
and lands in the Good Deal band (`17000 ≤ 17500 < 19000`). -/
theorem dealStatus_bands_witness :
    parseListingPrice "$17,500" = some 17500 ∧
    (dealStatusOfListing "$17,500" 20000 = "Good Deal" ↔
      (20000 : ℚ) * 0.85 ≤ 17500 ∧ (17500 : ℚ) < 20000 * 0.95) := by
  have h : parseListingPrice "$17,500" = some 17500 := by decide
  exact ⟨h, (dealStatus_bands "$17,500" 17500 20000 h (by norm_num)).2.1⟩

/-!
## `database_manager.py` — the data model and `update_market_analysis`

`CarListing` carries the columns the claims touch; `MarketAnalysis` is
the aggregate row.  `update_market_analysis` is modelled per
`(make, model)` group: `update_market_analysis_group corpus mk md` is
`some row` exactly when the recompute writes (inserts or updates) an
aggregate row for that pair, and `none` when the group is skipped.
-/

/-- A stored car listing (the columns used by the claims; `posting_time`
and `scraped_at` are wall-clock timestamps the claims never inspect). -/
structure CarListing where
  title : String
  price : Option String
  url : String
  location : String
  year : Option Nat
  make : Option String
  model : Option String
deriving Repr, DecidableEq

/-- A market-analysis aggregate row. -/
structure MarketAnalysis where
  make : String
  model : String
  avg_price : ℚ
  median_price : ℚ
  min_price : ℚ
  max_price : ℚ
  sample_size : Nat
  year_from : Option Nat
  year_to : Option Nat
deriving Repr, DecidableEq

/-- The listings of one `(make, model)` group (the SQL `group_by` /
`filter(make == .., model == ..)`). -/
def groupListings (corpus : List CarListing) (mk md : String) : List CarListing :=
  corpus.filter (fun l => l.make == some mk && l.model == some md)

/-- The group's listings whose `price` column is non-null
(`CarListing.price.isnot(None)`). -/
def pricedListings (corpus : List CarListing) (mk md : String) : List CarListing :=
  (groupListings corpus mk md).filter (fun l => l.price.isSome)

/-- The group's valid numeric prices: each non-null price string with `$`
and `,` stripped that `float(...)` accepts, in listing order. -/
def groupPrices (corpus : List CarListing) (mk md : String) : List ℚ :=
  (pricedListings corpus mk md).filterMap (fun l => l.price.bind parseListingPrice)

/-- The years used for the group's year range:
`[listing.year for listing in listings if listing.year]` — drawn from the
listings with a non-null price (the same `listings` variable the prices
come from), keeping years that are non-null and non-zero (Python
truthiness). -/
def groupYears (corpus : List CarListing) (mk md : String) : List Nat :=
  ((pricedListings corpus mk md).filterMap (fun l => l.year)).filter (fun y => y ≠ 0)

/-- `sorted(prices)[len(prices) // 2]` (Python's `sorted` is an ascending
stable sort; the default `0` is never reached — callers guarantee a
nonempty list). -/
def pyMedian (l : List ℚ) : ℚ :=
  (l.insertionSort (· ≤ ·)).getD (l.length / 2) 0

/-- One group's slice of `update_market_analysis`: skip groups with fewer
than 3 listings (the `HAVING count >= 3`), skip falsy make/model, parse
prices, skip if fewer than 3 parse, else build the aggregate row that is
inserted or updated. -/
def update_market_analysis_group (corpus : List CarListing) (mk md : String) :
    Option MarketAnalysis :=
  if (groupListings corpus mk md).length < 3 then none
  else if mk = "" ∨ md = "" then none
  else if (groupPrices corpus mk md).length < 3 then none
  else some {
    make := mk
    model := md
    avg_price := (groupPrices corpus mk md).sum / ((groupPrices corpus mk md).length : ℚ)
    median_price := pyMedian (groupPrices corpus mk md)
    min_price := ((groupPrices corpus mk md).min?).getD 0
    max_price := ((groupPrices corpus mk md).max?).getD 0
    sample_size := (groupPrices corpus mk md).length
    year_from := (groupYears corpus mk md).min?
    year_to := (groupYears corpus mk md).max? }

/-- A concrete corpus: four priced Toyota Camry listings. -/
def sampleCorpus : List CarListing :=
  [ ⟨"2001 Toyota Camry", some "$10,000", "u1", "loc", some 2001, some "Toyota", some "Camry"⟩,
    ⟨"2002 Toyota Camry", some "$12,000", "u2", "loc", some 2002, some "Toyota", some "Camry"⟩,
    ⟨"2003 Toyota Camry", some "$14,000", "u3", "loc", some 2003, some "Toyota", some "Camry"⟩,
    ⟨"2004 Toyota Camry", some "$16,000", "u4", "loc", some 2004, some "Toyota", some "Camry"⟩ ]

/-- The four parsed sample prices. -/
def samplePrices : List ℚ := [10000, 12000, 14000, 16000]

/-- The aggregate row the recompute produces on `sampleCorpus`. -/
def sampleRec : MarketAnalysis :=
  { make := "Toyota"
    model := "Camry"
    avg_price := samplePrices.sum / (samplePrices.length : ℚ)
    median_price := pyMedian samplePrices
    min_price := samplePrices.min?.getD 0
    max_price := samplePrices.max?.getD 0
    sample_size := samplePrices.length
    year_from := ([2001, 2002, 2003, 2004] : List Nat).min?
    year_to := ([2001, 2002, 2003, 2004] : List Nat).max? }

/-!  ### Claim C2 -/

/-- **C2 (confirmed).**  For each materialized group, the stored
`median_price` is the element at index `⌊n/2⌋` of the ascending-sorted
list of the group's `n` valid prices (the upper median for even `n`):
any ascending-sorted rearrangement `q` of the group's prices has the
stored median at its index `⌊n/2⌋`. -/
theorem update_median_is_upper_median (corpus : List CarListing) (mk md : String)
    (a : MarketAnalysis) (q : List ℚ)
    (ha : update_market_analysis_group corpus mk md = some a)
    (hq : q.Sorted (· ≤ ·))
    (hperm : (groupPrices corpus mk md).Perm q) :
    a.median_price = q.getD (q.length / 2) 0 := by
  unfold update_market_analysis_group at ha
  split_ifs at ha
  have hmed : a.median_price = pyMedian (groupPrices corpus mk md) := by
    simp only [Option.some.injEq] at ha
    rw [← ha]
  have hsort : q = (groupPrices corpus mk md).insertionSort (· ≤ ·) :=
    List.eq_of_perm_of_sorted
      (hperm.symm.trans (List.perm_insertionSort _ _).symm)
      hq (List.sorted_insertionSort _ _)
  have hlen : q.length = (groupPrices corpus mk md).length := hperm.symm.length_eq
  rw [hmed, pyMedian, ← hsort, hlen]

/-- **C2, witness.**  On the four-listing Camry corpus with prices
`[$10,000, $12,000, $14,000, $16,000]` the recompute materializes a row,
its median is the sorted list's index-2 element, and that value is
`14000` — not the `13000` a two-middle average would give. -/
theorem update_median_is_upper_median_witness :
    update_market_analysis_group sampleCorpus "Toyota" "Camry" = some sampleRec ∧
    sampleRec.median_price =
      samplePrices.getD (samplePrices.length / 2) 0 ∧
    sampleRec.median_price = 14000 := by
  have hgp : groupPrices sampleCorpus "Toyota" "Camry" = samplePrices := by decide
  have hgy : groupYears sampleCorpus "Toyota" "Camry" = [2001, 2002, 2003, 2004] := by
    decide
  have hgl : (groupListings sampleCorpus "Toyota" "Camry").length = 4 := by decide
  have ha : update_market_analysis_group sampleCorpus "Toyota" "Camry" = some sampleRec := by
    unfold update_market_analysis_group
    rw [hgp, hgy, hgl]
    rw [if_neg (by decide), if_neg (by decide), if_neg (by decide)]
    rfl
  refine ⟨ha, ?_, by decide⟩
  exact update_median_is_upper_median sampleCorpus "Toyota" "Camry" sampleRec
    samplePrices ha (by decide) (by rw [hgp])

/-!  ### Claim C3 -/

/-- **C3 (confirmed).**  For a `(make, model)` pair (both nonempty), the
recompute writes an aggregate row iff at least 3 of the group's listings
have a price that parses to a valid number; the written `sample_size` is
the count of those validly-priced listings, hence always `≥ 3`. -/
theorem update_materializes_iff_3_prices (corpus : List CarListing) (mk md : String)
    (hmk : mk ≠ "") (hmd : md ≠ "") :
    ((update_market_analysis_group corpus mk md).isSome ↔
      3 ≤ (groupPrices corpus mk md).length) ∧
    (∀ a, update_market_analysis_group corpus mk md = some a →
      a.sample_size = (groupPrices corpus mk md).length ∧ 3 ≤ a.sample_size) := by
  have hle : (groupPrices corpus mk md).length ≤ (groupListings corpus mk md).length := by
    refine le_trans (List.length_filterMap_le _ _) (List.length_filter_le _ _)
  unfold update_market_analysis_group
  split_ifs with c1 c2 c3
  · constructor
    · simp only [Option.isSome_none, Bool.false_eq_true, false_iff]
      omega
    · intro a ha
      simp at ha
  · exact absurd c2 (not_or.mpr ⟨hmk, hmd⟩)
  · constructor
    · simp only [Option.isSome_none, Bool.false_eq_true, false_iff]
      omega
    · intro a ha
      simp at ha
  · constructor
    · simp only [Option.isSome_some, true_iff]
      omega
    · intro a ha
      simp only [Option.some.injEq] at ha
      rw [← ha]
      refine ⟨rfl, ?_⟩
      show 3 ≤ (groupPrices corpus mk md).length
      omega

/-- **C3, witness.**  On the Camry corpus: the row is materialized, four
prices parse, and the stored sample size is 4 ≥ 3. -/
theorem update_materializes_iff_3_prices_witness :
    "Toyota" ≠ "" ∧ "Camry" ≠ "" ∧
    (((update_market_analysis_group sampleCorpus "Toyota" "Camry").isSome ↔
      3 ≤ (groupPrices sampleCorpus "Toyota" "Camry").length) ∧
    (∀ a, update_market_analysis_group sampleCorpus "Toyota" "Camry" = some a →
      a.sample_size = (groupPrices sampleCorpus "Toyota" "Camry").length ∧
        3 ≤ a.sample_size)) :=
  ⟨by decide, by decide,
    update_materializes_iff_3_prices sampleCorpus "Toyota" "Camry"
      (by decide) (by decide)⟩

/-!  ### Claim C5 -/

/-- Modelled from the spec claim: the non-null derived years over **all**
of the group's listings, "including listings whose price is missing or
unparseable". -/
def specAllGroupYears (corpus : List CarListing) (mk md : String) : List Nat :=
  (groupListings corpus mk md).filterMap (fun l => l.year)

/-- The Camry corpus plus one **unpriced** 1990 Camry: the claim says its
year should widen the stored year range; the code never sees it. -/
def c5corpus : List CarListing :=
  sampleCorpus ++
    [⟨"1990 Toyota Camry", none, "u5", "loc", some 1990, some "Toyota", some "Camry"⟩]

/-- The aggregate row the recompute produces on `c5corpus` — identical to
`sampleRec`, because the unpriced 1990 listing contributes neither a
price nor (as the claim would have it) a year. -/
def sampleRecC5 : MarketAnalysis := sampleRec

/-- The recompute on `c5corpus` materializes exactly `sampleRecC5`. -/
theorem sampleRecC5_eq :
    update_market_analysis_group c5corpus "Toyota" "Camry" = some sampleRecC5 := by
  have hgp : groupPrices c5corpus "Toyota" "Camry" = samplePrices := by decide
  have hgy : groupYears c5corpus "Toyota" "Camry" = [2001, 2002, 2003, 2004] := by decide
  have hgl : (groupListings c5corpus "Toyota" "Camry").length = 5 := by decide
  unfold update_market_analysis_group
  rw [hgp, hgy, hgl]
  rw [if_neg (by decide), if_neg (by decide), if_neg (by decide)]
  rfl

/-- **C5, counterexample.**  On `c5corpus` the recompute stores
`year_from = 2001`, but the minimum year over ALL of the group's listings
(the claim's population, which includes the price-less 1990 listing)
is `1990`. -/
theorem update_year_range_not_over_all_listings :
    (update_market_analysis_group c5corpus "Toyota" "Camry").map
      (fun a => a.year_from) = some (some 2001) ∧
    (specAllGroupYears c5corpus "Toyota" "Camry").min? = some 1990 ∧
    some (2001 : Nat) ≠ some 1990 := by
  refine ⟨?_, by decide, by decide⟩
  rw [sampleRecC5_eq]
  decide

/-- **C5 (amended).**  For every materialized group, `year_from`/`year_to`
are the minimum/maximum of the non-null (and nonzero) years over the
group's listings **with a non-null price** — not over all of the group's
listings — and both are `none` exactly when no such listing has a year. -/
theorem update_year_range_of_priced (corpus : List CarListing) (mk md : String)
    (a : MarketAnalysis)
    (ha : update_market_analysis_group corpus mk md = some a) :
    (groupYears corpus mk md = [] → a.year_from = none ∧ a.year_to = none) ∧
    (∀ lo, a.year_from = some lo →
      lo ∈ groupYears corpus mk md ∧ ∀ y ∈ groupYears corpus mk md, lo ≤ y) ∧
    (∀ hi, a.year_to = some hi →
      hi ∈ groupYears corpus mk md ∧ ∀ y ∈ groupYears corpus mk md, y ≤ hi) ∧
    (groupYears corpus mk md ≠ [] → a.year_from ≠ none ∧ a.year_to ≠ none) := by
  unfold update_market_analysis_group at ha
  split_ifs at ha
  simp only [Option.some.injEq] at ha
  have hfrom : a.year_from = (groupYears corpus mk md).min? := by rw [← ha]
  have hto : a.year_to = (groupYears corpus mk md).max? := by rw [← ha]
  refine ⟨?_, ?_, ?_, ?_⟩
  · intro hnil
    rw [hfrom, hto, hnil]
    exact ⟨List.min?_nil, List.max?_nil⟩
  · intro lo hlo
    rw [hfrom] at hlo
    exact List.min?_eq_some_iff'.mp hlo
  · intro hi hhi
    rw [hto] at hhi
    exact List.max?_eq_some_iff'.mp hhi
  · intro hne
    rw [hfrom, hto]
    constructor
    · intro h0
      exact hne (List.min?_eq_none_iff.mp h0)
    · intro h0
      exact hne (List.max?_eq_none_iff.mp h0)

/-- **C5, witness.**  The amended characterization, instantiated on
`c5corpus`: the stored range is `2001–2004`, minimum and maximum of the
priced listings' years. -/
theorem update_year_range_of_priced_witness :
    (groupYears c5corpus "Toyota" "Camry" = [] →
      sampleRecC5.year_from = none ∧ sampleRecC5.year_to = none) ∧
    (∀ lo, sampleRecC5.year_from = some lo →
      lo ∈ groupYears c5corpus "Toyota" "Camry" ∧
        ∀ y ∈ groupYears c5corpus "Toyota" "Camry", lo ≤ y) ∧
    (∀ hi, sampleRecC5.year_to = some hi →
      hi ∈ groupYears c5corpus "Toyota" "Camry" ∧
        ∀ y ∈ groupYears c5corpus "Toyota" "Camry", y ≤ hi) ∧
    (groupYears c5corpus "Toyota" "Camry" ≠ [] →
      sampleRecC5.year_from ≠ none ∧ sampleRecC5.year_to ≠ none) :=
  update_year_range_of_priced c5corpus "Toyota" "Camry" sampleRecC5
    sampleRecC5_eq

/-!
## `database_manager.py` — title parsing (`_extract_year`, `_extract_make`,
`_extract_model`)
-/

/-- ASCII lowercase (Python `str.lower` on the ASCII strings the source
handles). -/
def pyLower (s : String) : String :=
  String.mk (s.toList.map Char.toLower)

/-- `\w` for ASCII text: letters, digits, underscore. -/
def isWordChar (c : Char) : Bool :=
  c.isAlphanum || c = '_'

/-- Try to read exactly four decimal digits at the head of the list,
returning their value and the remainder. -/
def fourDigitsAt : List Char → Option (Nat × List Char)
  | c1 :: c2 :: c3 :: c4 :: rest =>
    match readDigit c1, readDigit c2, readDigit c3, readDigit c4 with
    | some a, some b, some c, some d => some (1000 * a + 100 * b + 10 * c + d, rest)
    | _, _, _, _ => none
  | _ => none

/-- `re.search` for the year patterns of the source
(`\b(19[7-9][0-9]|20[0-2][0-9])\b` and `\b(19[9][0-9]|20[0-2][0-9])\b`):
both alternations match exactly the four-digit numbers of a contiguous
range `[lo, hi]`, flanked by word boundaries.  Scans left to right,
carrying the previous character for the left `\b`. -/
def reSearchYear (lo hi : Nat) : Option Char → List Char → Option Nat
  | _, [] => none
  | prev, c :: rest =>
    match fourDigitsAt (c :: rest) with
    | some (v, after) =>
      if (prev.all fun pc => !isWordChar pc) && decide (lo ≤ v) && decide (v ≤ hi) &&
          (after.head?.all fun ac => !isWordChar ac) then
        some v
      else reSearchYear lo hi (some c) rest
    | none => reSearchYear lo hi (some c) rest

/-- `_extract_year`: first standalone four-digit year in `[1970, 2029]`. -/
def extract_year (title : String) : Option Nat :=
  reSearchYear 1970 2029 none title.toList

/-- The `common_makes` list of `_extract_make` (shared verbatim by
`generate_kbb_lookup_url`). -/
def common_makes : List String :=
  ["Toyota", "Honda", "Ford", "Chevrolet", "Chevy", "Nissan", "Hyundai",
   "Kia", "Mazda", "Subaru", "Volkswagen", "VW", "Jeep", "BMW",
   "Mercedes", "Lexus", "Acura", "Audi"]

/-- The alias normalisation inside the make loop: Chevy → Chevrolet,
VW → Volkswagen, all else unchanged. -/
def canonicalizeMake (mk : String) : String :=
  if pyLower mk = "chevy" then "Chevrolet"
  else if pyLower mk = "vw" then "Volkswagen"
  else mk

/-- `_extract_make`: the first make of `common_makes` whose lowercase form
occurs in the lowercased title, normalised. -/
def extract_make (title : String) : Option String :=
  (common_makes.find? (fun mk => pyIn (pyLower mk) (pyLower title))).map canonicalizeMake

/-- The per-make model keyword dictionary of `_extract_model`. -/
def model_dict : List (String × List String) :=
  [("toyota", ["corolla", "camry", "rav4", "highlander", "4runner", "tacoma",
     "tundra", "prius", "sienna"]),
   ("honda", ["civic", "accord", "cr-v", "pilot", "odyssey", "fit", "hr-v"]),
   ("ford", ["f-150", "f150", "escape", "explorer", "focus", "fusion", "mustang"]),
   ("chevrolet", ["silverado", "equinox", "tahoe", "malibu", "suburban",
     "colorado", "camaro"]),
   ("nissan", ["altima", "rogue", "sentra", "murano", "pathfinder", "frontier",
     "maxima"]),
   ("hyundai", ["elantra", "sonata", "tucson", "santa fe", "kona", "palisade"]),
   ("kia", ["forte", "optima", "sorento", "sportage", "telluride", "soul"]),
   ("mazda", ["mazda3", "mazda6", "cx-5", "cx-9", "mx-5", "miata"]),
   ("subaru", ["outback", "forester", "impreza", "crosstrek", "legacy", "ascent"]),
   ("volkswagen", ["jetta", "passat", "tiguan", "atlas", "golf", "beetle"]),
   ("jeep", ["wrangler", "grand cherokee", "cherokee", "compass", "renegade"]),
   ("bmw", ["3 series", "5 series", "x3", "x5", "328i", "530i", "m3", "m5"]),
   ("mercedes", ["c-class", "e-class", "s-class", "gla", "glc", "gle"]),
   ("lexus", ["rx", "es", "nx", "is", "gx", "lx", "rc"]),
   ("acura", ["mdx", "rdx", "tlx", "ilx", "rlx"]),
   ("audi", ["a4", "a6", "q5", "q7", "a3", "tt", "r8"])]

/-- Python `str.title()` for ASCII: a letter is uppercased when the
preceding character is not a letter, lowercased otherwise. -/
def titleCaseChars : Bool → List Char → List Char
  | _, [] => []
  | prevAlpha, c :: t =>
    if c.isAlpha then
      (if prevAlpha then c.toLower else c.toUpper) :: titleCaseChars true t
    else c :: titleCaseChars false t

/-- Python `str.title()`. -/
def pyTitle (s : String) : String :=
  String.mk (titleCaseChars false s.toList)

/-- Python `str.strip()` (ASCII whitespace). -/
def pyStripChars (cs : List Char) : List Char :=
  ((cs.dropWhile Char.isWhitespace).reverse.dropWhile Char.isWhitespace).reverse

/-- Python `str.split()` with no separator: whitespace-run split, no empty
words. -/
def splitWordsAux : List Char → List Char → List (List Char)
  | [], acc => if acc.isEmpty then [] else [acc.reverse]
  | c :: t, acc =>
    if c.isWhitespace then
      if acc.isEmpty then splitWordsAux t [] else acc.reverse :: splitWordsAux t []
    else splitWordsAux t (c :: acc)

/-- Python `str.split()`. -/
def pySplit (cs : List Char) : List (List Char) :=
  splitWordsAux cs []

/-- Python `str.find` on character lists: index of the first occurrence of
`needle`, `none` for Python's `-1`. -/
def strFindAux (needle : List Char) : Nat → List Char → Option Nat
  | i, [] => if needle.isEmpty then some i else none
  | i, c :: t => if needle.isPrefixOf (c :: t) then some i else strFindAux needle (i + 1) t

/-- Python `hay.find(needle)` (as `Option`). -/
def strFind (hay needle : List Char) : Option Nat :=
  strFindAux needle 0 hay

/-- The fallback branch of `_extract_model`: the first word after the make
in the lowercased title, title-cased, provided it has more than one
character (the `IndexError` of `split()[0]` on an empty remainder is the
caught-and-return-`None` path). -/
def extract_model_fallback (tl ml : List Char) : Option String :=
  match strFind tl ml with
  | some idx =>
    match pySplit (pyStripChars (tl.drop (idx + ml.length))) with
    | [] => none
    | w :: _ => if 1 < w.length then some (pyTitle (String.mk w)) else none
  | none => none

/-- `_extract_model`: `None` without a make; else the first dictionary
keyword of the make found in the lowercased title, title-cased; else the
fallback word after the make. -/
def extract_model (title : String) (make : Option String) : Option String :=
  match make with
  | none => none
  | some mk =>
    let tl := pyLower title
    let ml := pyLower mk
    match
      match model_dict.lookup ml with
      | some models => models.find? (fun m => pyIn (pyLower m) tl)
      | none => none
    with
    | some m => some (pyTitle m)
    | none => extract_model_fallback tl.toList ml.toList

/-!  ### Claim C4 -/

/-- `find?` returns the element `a` when `a` satisfies the predicate and is
the only element of the list that does. -/
theorem find?_eq_of_unique {α : Type} (p : α → Bool) (l : List α) (a : α)
    (ha : a ∈ l) (hp : p a = true) (hu : ∀ x ∈ l, p x = true → x = a) :
    l.find? p = some a := by
  induction l with
  | nil => cases ha
  | cons b t ih =>
    by_cases hb : p b = true
    · have hba : b = a := hu b (List.mem_cons_self b t) hb
      subst hba
      simp [List.find?_cons, hb]
    · rcases List.mem_cons.mp ha with rfl | hmem
      · exact absurd hp hb
      · simp only [List.find?_cons, Bool.not_eq_true] at hb ⊢
        rw [hb]
        exact ih hmem (fun x hx hpx => hu x (List.mem_cons_of_mem _ hx) hpx)

/-- **C4, counterexample.**  The title `"Toyota Honda Civic"` contains the
known make `"Honda"` and Honda's model keyword `"civic"`, yet extraction
returns `("Toyota", "Honda")`, not `("Honda", "Civic")`: surrounding
text containing an earlier-priority make changes the result. -/
theorem extract_make_model_depends_on_surrounding_text :
    pyIn (pyLower "Honda") (pyLower "Toyota Honda Civic") = true ∧
    "Honda" ∈ common_makes ∧
    model_dict.lookup (pyLower (canonicalizeMake "Honda")) =
      some ["civic", "accord", "cr-v", "pilot", "odyssey", "fit", "hr-v"] ∧
    pyIn (pyLower "civic") (pyLower "Toyota Honda Civic") = true ∧
    extract_make "Toyota Honda Civic" = some "Toyota" ∧
    extract_model "Toyota Honda Civic" (extract_make "Toyota Honda Civic") =
      some "Honda" := by
  refine ⟨by decide, by decide, by decide, by decide, by decide, by decide⟩

/-- **C4 (amended).**  If the **only** known make substring
(case-insensitively) in the title is `mk`, and the **only** keyword of
that make's model list occurring (case-insensitively) in the title is
`md`, then extraction returns exactly the canonicalized make
(Chevy → Chevrolet, VW → Volkswagen) and the title-cased model. -/
theorem extract_make_model_exact (title mk md : String) (ms : List String)
    (hmk : mk ∈ common_makes)
    (hin : pyIn (pyLower mk) (pyLower title) = true)
    (hmkuniq : ∀ m ∈ common_makes, pyIn (pyLower m) (pyLower title) = true → m = mk)
    (hdict : model_dict.lookup (pyLower (canonicalizeMake mk)) = some ms)
    (hmd : md ∈ ms)
    (hmdin : pyIn (pyLower md) (pyLower title) = true)
    (hmduniq : ∀ m ∈ ms, pyIn (pyLower m) (pyLower title) = true → m = md) :
    extract_make title = some (canonicalizeMake mk) ∧
    extract_model title (extract_make title) = some (pyTitle md) := by
  have hmake : extract_make title = some (canonicalizeMake mk) := by
    unfold extract_make
    rw [find?_eq_of_unique _ _ mk hmk hin hmkuniq]
    rfl
  refine ⟨hmake, ?_⟩
  rw [hmake]
  unfold extract_model
  dsimp only
  rw [hdict]
  dsimp only
  rw [find?_eq_of_unique _ _ md hmd hmdin hmduniq]

/-- **C4, witness.**  `"2005 Honda Civic LX"` holds exactly one known make
(`Honda`) and exactly one Honda model keyword (`civic`); extraction
returns `("Honda", "Civic")`. -/
theorem extract_make_model_exact_witness :
    extract_make "2005 Honda Civic LX" = some (canonicalizeMake "Honda") ∧
    extract_model "2005 Honda Civic LX" (extract_make "2005 Honda Civic LX") =
      some (pyTitle "civic") :=
  extract_make_model_exact "2005 Honda Civic LX" "Honda" "civic"
    ["civic", "accord", "cr-v", "pilot", "odyssey", "fit", "hr-v"]
    (by decide) (by decide) (by decide) (by decide) (by decide) (by decide)
    (by decide)

/-!
## `database_manager.py` — `add_listings`

`add_listings` is modelled as a state transition on the committed
listing set.  A run may be interrupted by a storage error; `failAt`
injects it: `some i` with `i < batch.length` fails while processing the
`i`-th batch entry, `i = batch.length` fails at the final `commit()`,
and `none` (or an index past the commit) is a clean run.  The returned
`Bool` is `true` iff an exception escapes `add_listings` to its caller —
the source's `except Exception: logger.error(...); db.session.rollback()`
swallows every failure, so it is always `false`.  Session adds are
pending until the final commit; a rollback discards them, so a failed
run leaves the committed set untouched.  (`posting_time`/`scraped_at`
parsing feeds wall-clock timestamp columns no claim inspects and is
omitted.)
-/

/-- A raw scraped listing as passed to `add_listings`
(`listing_data.get(...)` with `''` defaults). -/
structure RawListing where
  title : String
  price : String
  url : String
  location : String
deriving Repr, DecidableEq

/-- Building the new `CarListing` row: derive year, make and model from
the title. -/
def buildListing (r : RawListing) : CarListing :=
  { title := r.title
    price := some r.price
    url := r.url
    location := r.location
    year := extract_year r.title
    make := extract_make r.title
    model := extract_model r.title (extract_make r.title) }

/-- The loop of `add_listings`: skip records without a URL, skip records
whose URL is already present (the session's pending adds are visible to
the duplicate query via autoflush), stage the rest; commit at the end.
A failure at step `i` answers `(committed, false)`: rollback, exception
swallowed. -/
def addListingsGo (committed pending : List CarListing) (batch : List RawListing)
    (i : Nat) (failAt : Option Nat) : List CarListing × Bool :=
  match batch with
  | [] =>
    if failAt = some i then (committed, false)
    else (committed ++ pending, false)
  | r :: rest =>
    if failAt = some i then (committed, false)
    else if r.url = "" then addListingsGo committed pending rest (i + 1) failAt
    else if (committed ++ pending).any (fun l => l.url == r.url) then
      addListingsGo committed pending rest (i + 1) failAt
    else addListingsGo committed (pending ++ [buildListing r]) rest (i + 1) failAt

/-- `add_listings`: early return on an empty batch, else run the loop and
commit. -/
def add_listings (committed : List CarListing) (batch : List RawListing)
    (failAt : Option Nat) : List CarListing × Bool :=
  if batch.isEmpty then (committed, false)
  else addListingsGo committed [] batch 0 failAt

/-!  ### Claim C6 -/

/-- A concrete raw listing for the failure run. -/
def rawCivic : RawListing := ⟨"2005 Honda Civic", "$5,000", "https://x/1", "loc"⟩

/-- **C6, counterexample.**  A batch whose very first store step fails:
the batch is rolled back (no listing committed), but the exception is
**swallowed** — `add_listings` returns normally (`false` = nothing
escapes to the caller), while the claim requires the failure to be
surfaced. -/
theorem add_listings_swallows_failure :
    add_listings [] [rawCivic] (some 0) = ([], false) ∧
    (add_listings [] [rawCivic] (some 0)).2 ≠ true := by
  refine ⟨by decide, by decide⟩

/-- Failure anywhere in the loop or at the commit makes the whole run a
no-op on the committed state, with no exception escaping. -/
theorem addListingsGo_failure (batch : List RawListing) :
    ∀ (committed pending : List CarListing) (start i : Nat),
      start ≤ i → i ≤ start + batch.length →
      addListingsGo committed pending batch start (some i) = (committed, false) := by
  induction batch with
  | nil =>
    intro committed pending start i h1 h2
    simp only [List.length_nil, Nat.add_zero] at h2
    have : i = start := le_antisymm h2 h1
    subst this
    simp [addListingsGo]
  | cons r rest ih =>
    intro committed pending start i h1 h2
    by_cases hs : i = start
    · subst hs
      simp [addListingsGo]
    · have hlt : start + 1 ≤ i := by omega
      have hle : i ≤ start + 1 + rest.length := by
        simp only [List.length_cons] at h2
        omega
      unfold addListingsGo
      rw [if_neg (by simp; omega)]
      split_ifs <;> exact ih _ _ _ _ hlt hle

/-- **C6 (amended).**  If persisting a batch fails partway through (at any
listing step or at the commit), no listing of the batch remains
committed — stored state is exactly as before the call — but the failure
is **not** surfaced to the caller: `add_listings` catches the exception,
logs it, rolls back, and returns normally (retry happens only on the
next scheduled run). -/
theorem add_listings_failure_rolls_back (committed : List CarListing)
    (batch : List RawListing) (i : Nat) (hi : i ≤ batch.length) :
    add_listings committed batch (some i) = (committed, false) := by
  unfold add_listings
  split_ifs with h
  · rfl
  · exact addListingsGo_failure batch committed [] 0 i (Nat.zero_le i)
      (by simpa using hi)

/-- **C6, witness.**  A commit-time failure on a one-listing batch over a
nonempty store: the store is unchanged and no exception escapes. -/
theorem add_listings_failure_rolls_back_witness :
    add_listings [buildListing rawCivic] [rawCivic] (some 1) =
      ([buildListing rawCivic], false) :=
  add_listings_failure_rolls_back [buildListing rawCivic] [rawCivic] 1 (by decide)

/-!
## `craigslist_scraper.py` — the per-record dedup/keyword filter

The three `continue` guards of `scrape_craigslist` applied to each
extracted record: missing title/url, URL already known, or a filter
keyword occurring case-insensitively in the title.  `admitRecord` is
`true` iff the record survives all three guards. -/

/-- The record filter of `scrape_craigslist` (`title`/`url` are `none`
when extraction produced nothing; Python's `not x` also treats `""` as
missing). -/
def admitRecord (title url : Option String) (existingUrls filterKeywords : List String) :
    Bool :=
  match title, url with
  | some t, some u =>
    if t = "" ∨ u = "" then false
    else if u ∈ existingUrls then false
    else if filterKeywords.any (fun kw => pyIn (pyLower kw) (pyLower t)) then false
    else true
  | _, _ => false

/-- Modelled from the spec claim C8: rejection iff the identifier/URL is
missing, or the identifier is already known, or the title contains an
excluded keyword (case-insensitive substring). -/
def specRejects (title url : Option String) (existingUrls filterKeywords : List String) :
    Bool :=
  match url with
  | none => true
  | some u =>
    u == "" || existingUrls.contains u ||
      filterKeywords.any (fun kw => pyIn (pyLower kw) (pyLower (title.getD "")))

/-!  ### Claim C8 -/

/-- **C8, counterexample.**  A record with an *empty title* but a fresh,
present URL and no keyword hit: none of the claim's three rejection
conditions holds, yet the code rejects it (`if not title or not url`). -/
theorem admitRecord_rejects_empty_title :
    admitRecord (some "") (some "https://x/9") [] ["salvage"] = false ∧
    specRejects (some "") (some "https://x/9") [] ["salvage"] = false := by
  refine ⟨by decide, by decide⟩

/-- **C8 (amended).**  The filter rejects a record iff its title is
missing/empty, **or** its identifier/URL is missing/empty, or the
identifier is already in `knownIdentifiers` (exact match), or the title
contains an excluded keyword as a case-insensitive substring.  In
particular a known identifier rejects even with a clean title, and a
keyword hit rejects even with a fresh identifier. -/
theorem admitRecord_false_iff (title url : Option String)
    (ex kw : List String) :
    admitRecord title url ex kw = false ↔
      (title = none ∨ title = some "" ∨ url = none ∨ url = some "" ∨
       (∃ u, url = some u ∧ u ∈ ex) ∨
       (∃ t, title = some t ∧ ∃ k ∈ kw, pyIn (pyLower k) (pyLower t) = true)) := by
  cases title with
  | none => simp [admitRecord]
  | some t =>
    cases url with
    | none => simp [admitRecord]
    | some u =>
      unfold admitRecord
      dsimp only
      split_ifs with h1 h2 h3
      · rcases h1 with h1 | h1 <;> simp [h1]
      · simp only [true_iff]
        refine Or.inr (Or.inr (Or.inr (Or.inr (Or.inl ⟨u, rfl, h2⟩))))
      · rcases List.any_eq_true.mp h3 with ⟨k, hk, hkin⟩
        simp only [true_iff]
        exact Or.inr (Or.inr (Or.inr (Or.inr (Or.inr ⟨t, rfl, k, hk, hkin⟩))))
      · simp only [Bool.true_eq_false, false_iff]
        push_neg at h1
        intro hcon
        rcases hcon with h | h | h | h | ⟨v, hv, hvex⟩ | ⟨s, hs, k, hk, hkin⟩
        · exact h.elim
        · exact h1.1 (Option.some.inj h)
        · exact h.elim
        · exact h1.2 (Option.some.inj h)
        · exact h2 (Option.some.inj hv ▸ hvex)
        · exact absurd (List.any_eq_true.mpr ⟨k, hk, Option.some.inj hs ▸ hkin⟩) h3

/-!
## `utils.py` — `parse_posting_time`

The normaliser takes any string, returns `"N/A"` for an empty input,
strips a `+`-timezone suffix, dispatches on the shape of the (stripped)
string to one of the format families — ISO (`fromisoformat`),
`MM/DD/YYYY` variants (`strptime`), text-month variants — and renders a
successful parse as `YYYY-MM-DD HH:MM:SS`; every failure path returns
the stripped string.

Modelling scope: `datetime.fromisoformat` is modelled on date and
date-plus-time forms (`YYYY-MM-DD[*HH[:MM[:SS]]]`) without fractional
seconds or embedded UTC-offsets (a `+HH:MM` offset is cut off by the
caller's `split('+')` before parsing); `strptime`'s literal blank is
modelled as a single space; `%Y` is rendered zero-padded to four
digits as documented for `datetime.strftime`.  `datetime.now().year`
is the explicit `cy` parameter.
-/

/-- A `datetime.datetime` value (microseconds are never produced by the
modelled formats). -/
structure PyDateTime where
  year : Nat
  month : Nat
  day : Nat
  hour : Nat
  minute : Nat
  second : Nat
deriving Repr, DecidableEq

/-- Gregorian leap year. -/
def isLeapYear (y : Nat) : Bool :=
  y % 4 = 0 && (y % 100 ≠ 0 || y % 400 = 0)

/-- Days in a month. -/
def daysInMonth (y m : Nat) : Nat :=
  if m = 2 then (if isLeapYear y then 29 else 28)
  else if m = 4 ∨ m = 6 ∨ m = 9 ∨ m = 11 then 30
  else 31

/-- The constructor validation of `datetime.datetime`. -/
def validDateTime (dt : PyDateTime) : Bool :=
  1 ≤ dt.year && dt.year ≤ 9999 && 1 ≤ dt.month && dt.month ≤ 12 &&
  1 ≤ dt.day && dt.day ≤ daysInMonth dt.year dt.month &&
  dt.hour ≤ 23 && dt.minute ≤ 59 && dt.second ≤ 59

/-- Construct a validated datetime. -/
def mkValid (y mo dy h mi s : Nat) : Option PyDateTime :=
  let dt : PyDateTime := ⟨y, mo, dy, h, mi, s⟩
  if validDateTime dt then some dt else none

/-- Two-digit zero-padded decimal rendering. -/
def pad2 (n : Nat) : List Char :=
  [digitChar (n / 10 % 10), digitChar (n % 10)]

/-- Four-digit zero-padded decimal rendering. -/
def pad4 (n : Nat) : List Char :=
  [digitChar (n / 1000 % 10), digitChar (n / 100 % 10), digitChar (n / 10 % 10),
   digitChar (n % 10)]

/-- `dt.strftime("%Y-%m-%d %H:%M:%S")` as characters. -/
def fmtChars (dt : PyDateTime) : List Char :=
  pad4 dt.year ++ '-' :: pad2 dt.month ++ '-' :: pad2 dt.day ++
    ' ' :: pad2 dt.hour ++ ':' :: pad2 dt.minute ++ ':' :: pad2 dt.second

/-- `dt.strftime("%Y-%m-%d %H:%M:%S")`. -/
def strftimeSortable (dt : PyDateTime) : String :=
  String.mk (fmtChars dt)

/-- `datetime.fromisoformat` on `YYYY-MM-DD[*HH[:MM[:SS]]]` (any single
separator character, zero-padded two-digit fields, validated). -/
def fromIsoChars (cs : List Char) : Option PyDateTime :=
  match cs with
  | y1 :: y2 :: y3 :: y4 :: s1 :: m1 :: m2 :: s2 :: d1 :: d2 :: rest =>
    if s1 = '-' ∧ s2 = '-' then
      match readDigit y1, readDigit y2, readDigit y3, readDigit y4,
            readDigit m1, readDigit m2, readDigit d1, readDigit d2 with
      | some a, some b, some c, some d, some e, some f, some g, some h =>
        let y := 1000 * a + 100 * b + 10 * c + d
        let mo := 10 * e + f
        let dy := 10 * g + h
        match rest with
        | [] => mkValid y mo dy 0 0 0
        | _ :: h1 :: h2 :: [] =>
          (match readDigit h1, readDigit h2 with
           | some p, some q => mkValid y mo dy (10 * p + q) 0 0
           | _, _ => none)
        | _ :: h1 :: h2 :: c1 :: n1 :: n2 :: [] =>
          if c1 = ':' then
            (match readDigit h1, readDigit h2, readDigit n1, readDigit n2 with
             | some p, some q, some r, some s =>
               mkValid y mo dy (10 * p + q) (10 * r + s) 0
             | _, _, _, _ => none)
          else none
        | _ :: h1 :: h2 :: c1 :: n1 :: n2 :: c2 :: s1 :: s2 :: [] =>
          if c1 = ':' ∧ c2 = ':' then
            (match readDigit h1, readDigit h2, readDigit n1, readDigit n2,
                   readDigit s1, readDigit s2 with
             | some p, some q, some r, some s, some t, some u =>
               mkValid y mo dy (10 * p + q) (10 * r + s) (10 * t + u)
             | _, _, _, _, _, _ => none)
          else none
        | _ => none
      | _, _, _, _, _, _, _, _ => none
    else none
  | _ => none

/-- A 1–2 digit `strptime` numeric field with a value range (`%m`, `%d`,
`%H`, `%M`): take the maximal digit run, require length 1 or 2 and a
value in `[lo, hi]`. -/
def fieldFlex (lo hi : Nat) (cs : List Char) : Option (Nat × List Char) :=
  let ds := cs.takeWhile Char.isDigit
  let rest := cs.dropWhile Char.isDigit
  if (ds.length = 1 ∨ ds.length = 2) ∧ lo ≤ digitsVal ds ∧ digitsVal ds ≤ hi then
    some (digitsVal ds, rest)
  else none

/-- An exact-width `strptime` numeric field (`%Y`, `%y`). -/
def fieldExact (n : Nat) (cs : List Char) : Option (Nat × List Char) :=
  let ds := cs.takeWhile Char.isDigit
  let rest := cs.dropWhile Char.isDigit
  if ds.length = n then some (digitsVal ds, rest) else none

/-- `%y` pivot: `00–68 → 2000–2068`, `69–99 → 1969–1999`. -/
def mapY2 (v : Nat) : Nat :=
  if v ≤ 68 then 2000 + v else 1900 + v

/-- A `" %H:%M"` suffix that must consume the whole remainder. -/
def parseHM (cs : List Char) : Option (Nat × Nat) :=
  match cs with
  | ' ' :: rest =>
    match fieldFlex 0 23 rest with
    | some (h, ':' :: rest2) =>
      (match fieldFlex 0 59 rest2 with
       | some (mi, []) => some (h, mi)
       | _ => none)
    | _ => none
  | _ => none

/-- One `MM/DD/year` `strptime` format: month, `/`, day, `/`, a 4- or
2-digit year, optionally `" %H:%M"`; the whole string must match;
day-of-month validated by the `datetime` constructor. -/
def trySlashFmt (yearLen : Nat) (withTime : Bool) (cs : List Char) : Option PyDateTime :=
  match fieldFlex 1 12 cs with
  | some (mo, '/' :: r1) =>
    (match fieldFlex 1 31 r1 with
     | some (dy, '/' :: r2) =>
       (match fieldExact yearLen r2 with
        | some (yraw, r3) =>
          let y := if yearLen = 2 then mapY2 yraw else yraw
          if withTime then
            match parseHM r3 with
            | some (h, mi) => mkValid y mo dy h mi 0
            | none => none
          else
            match r3 with
            | [] => mkValid y mo dy 0 0 0
            | _ => none
        | none => none)
     | _ => none)
  | _ => none

/-- First hit in a list of parse attempts. -/
def firstSome {α : Type} : List (Option α) → Option α
  | [] => none
  | some a :: _ => some a
  | none :: rest => firstSome rest

/-- The `'/'` branch of `parse_posting_time`: the four formats
`%m/%d/%Y`, `%m/%d/%Y %H:%M`, `%m/%d/%y`, `%m/%d/%y %H:%M`, first
success wins; exhaustion is the raised-then-caught `ValueError`. -/
def parseSlashChars (cs : List Char) : Option PyDateTime :=
  firstSome [trySlashFmt 4 false cs, trySlashFmt 4 true cs,
             trySlashFmt 2 false cs, trySlashFmt 2 true cs]

/-- `%b`: the lowercase month abbreviations (strptime matches
case-insensitively; the text branch lowercases its input first). -/
def monthAbbrs : List (Nat × List Char) :=
  [(1, "jan".toList), (2, "feb".toList), (3, "mar".toList), (4, "apr".toList),
   (5, "may".toList), (6, "jun".toList), (7, "jul".toList), (8, "aug".toList),
   (9, "sep".toList), (10, "oct".toList), (11, "nov".toList), (12, "dec".toList)]

/-- `%B`: the lowercase full month names. -/
def monthFulls : List (Nat × List Char) :=
  [(1, "january".toList), (2, "february".toList), (3, "march".toList),
   (4, "april".toList), (5, "may".toList), (6, "june".toList), (7, "july".toList),
   (8, "august".toList), (9, "september".toList), (10, "october".toList),
   (11, "november".toList), (12, "december".toList)]

/-- Match a month name at the head of the string. -/
def matchMonthName (names : List (Nat × List Char)) (cs : List Char) :
    Option (Nat × List Char) :=
  names.findSome? (fun nm =>
    if nm.2.isPrefixOf cs then some (nm.1, cs.drop nm.2.length) else none)

/-- One text-month `strptime` format: month name, space, day, then
optionally `", %Y"` and/or `" %H:%M"`; formats without `%Y` parse at
`strptime`'s default year 1900 (so `Feb 29` fails there). -/
def tryTextFmt (full withYear withTime : Bool) (cs : List Char) : Option PyDateTime :=
  match matchMonthName (if full then monthFulls else monthAbbrs) cs with
  | some (mo, ' ' :: r1) =>
    (match fieldFlex 1 31 r1 with
     | some (dy, r2) =>
       if withYear then
         match r2 with
         | ',' :: ' ' :: r3 =>
           (match fieldExact 4 r3 with
            | some (y, r4) =>
              if withTime then
                match parseHM r4 with
                | some (h, mi) => mkValid y mo dy h mi 0
                | none => none
              else
                match r4 with
                | [] => mkValid y mo dy 0 0 0
                | _ => none
            | none => none)
         | _ => none
       else if withTime then
         match parseHM r2 with
         | some (h, mi) => mkValid 1900 mo dy h mi 0
         | none => none
       else
         match r2 with
         | [] => mkValid 1900 mo dy 0 0 0
         | _ => none
     | none => none)
  | _ => none

/-- First successful text format together with its needs-year-replacement
flag. -/
def firstHit : List (Option PyDateTime × Bool) → Option (PyDateTime × Bool)
  | [] => none
  | (some dt, b) :: _ => some (dt, b)
  | (none, _) :: rest => firstHit rest

/-- `parsed_dt.replace(year=current_year)` — revalidated, so `Feb 29`
of a leap year fails (raises, caught, original string returned) when the
current year is not leap. -/
def replaceYear (cy : Nat) (dt : PyDateTime) : Option PyDateTime :=
  mkValid cy dt.month dt.day dt.hour dt.minute dt.second

/-- The text-month branch: the eight formats in source order
(`%b %d`, `%B %d`, `%b %d, %Y`, `%B %d, %Y`, `%b %d, %Y %H:%M`,
`%B %d, %Y %H:%M`, `%b %d %H:%M`, `%B %d %H:%M`); the first success is
kept, and formats without `%Y` have their 1900 default replaced by the
current year. -/
def parseTextChars (cy : Nat) (cs : List Char) : Option PyDateTime :=
  let ls := cs.map Char.toLower
  match firstHit
    [(tryTextFmt false false false ls, true),
     (tryTextFmt true false false ls, true),
     (tryTextFmt false true false ls, false),
     (tryTextFmt true true false ls, false),
     (tryTextFmt false true true ls, false),
     (tryTextFmt true true true ls, false),
     (tryTextFmt false false true ls, true),
     (tryTextFmt true false true ls, true)] with
  | none => none
  | some (dt, needRep) => if needRep then replaceYear cy dt else some dt

/-- `time_string.split('+')[0]` guarded by `'+' in time_string`. -/
def stripPlusChars (cs : List Char) : List Char :=
  if cs.contains '+' then cs.takeWhile (fun c => c ≠ '+') else cs

/-- The format dispatch of `parse_posting_time` on the stripped string:
`'T'` → ISO; `'-'` and `':'` → ISO; `'/'` → the slash formats; else the
text-month formats.  `none` means every pattern of the applicable family
failed. -/
def postingParse (cy : Nat) (t : List Char) : Option PyDateTime :=
  if t.contains 'T' then fromIsoChars t
  else if t.contains '-' && t.contains ':' then fromIsoChars t
  else if t.contains '/' then parseSlashChars t
  else parseTextChars cy t

/-- `parse_posting_time`: `"N/A"` on empty input; strip the `+`-suffix;
on a successful parse render `YYYY-MM-DD HH:MM:SS`; on failure return
the stripped string. -/
def parse_posting_time (cy : Nat) (s : String) : String :=
  if s = "" then "N/A"
  else
    match postingParse cy (stripPlusChars s.toList) with
    | some dt => strftimeSortable dt
    | none => String.mk (stripPlusChars s.toList)

/-!  ### Claim C7 -/

/-- **C7, counterexample.**  On an unparseable input containing `'+'`, the
function does not return the original input unchanged: the timezone
split happens *before* parsing, and the failure path returns the
**stripped** string — `"blah+zzz"` comes back as `"blah"`. -/
theorem parse_posting_time_returns_stripped :
    parse_posting_time 2024 "blah+zzz" = "blah" ∧
    "blah" ≠ "blah+zzz" := by
  refine ⟨by decide, by decide⟩

/-- **C7 (amended).**  `parse_posting_time` is total — for every input it
returns a string, never raising: the empty string gives the literal
`"N/A"`; when every date-format pattern of the applicable family fails,
it returns the input *after `'+'`-suffix stripping* (which is the
original input unchanged exactly when the input has no `'+'`); a
successful parse gives the canonical rendering. -/
theorem parse_posting_time_total (cy : Nat) (s : String) :
    (s = "" → parse_posting_time cy s = "N/A") ∧
    (s ≠ "" → postingParse cy (stripPlusChars s.toList) = none →
      parse_posting_time cy s = String.mk (stripPlusChars s.toList)) ∧
    (s ≠ "" → ∀ dt, postingParse cy (stripPlusChars s.toList) = some dt →
      parse_posting_time cy s = strftimeSortable dt) := by
  refine ⟨?_, ?_, ?_⟩
  · intro h0
    simp [parse_posting_time, h0]
  · intro hne hnone
    simp only [String.toList] at hnone
    simp [parse_posting_time, hne, hnone]
  · intro hne dt hdt
    simp only [String.toList] at hdt
    simp [parse_posting_time, hne, hdt]

/-- **C7, witness.**  The empty string gives `"N/A"`; the pattern-free
`"hello"` (no `'+'`, every family fails) comes back unchanged. -/
theorem parse_posting_time_total_witness :
    parse_posting_time 2024 "" = "N/A" ∧
    parse_posting_time 2024 "hello" = String.mk (stripPlusChars "hello".toList) ∧
    String.mk (stripPlusChars "hello".toList) = "hello" :=
  ⟨(parse_posting_time_total 2024 "").1 rfl,
   (parse_posting_time_total 2024 "hello").2.1 (by decide) (by decide),
   by decide⟩

/-!  ### Claim C9 -/

/-- Rendering then reading a digit is the identity below 10. -/
theorem readDigit_digitChar : ∀ k < 10, readDigit (digitChar k) = some k := by
  decide

/-- Every character `digitChar` produces. -/
theorem digitChar_mem_all (k : Nat) :
    digitChar k ∈ ['0', '1', '2', '3', '4', '5', '6', '7', '8', '9', '-', ':', ' '] := by
  have h9 : min k 9 ≤ 9 := Nat.min_le_right k 9
  unfold digitChar
  revert h9
  generalize min k 9 = m
  intro h9
  interval_cases m <;> decide

/-- The characters of a two-digit field. -/
theorem pad2_subset (n : Nat) :
    ∀ c ∈ pad2 n, c ∈ ['0', '1', '2', '3', '4', '5', '6', '7', '8', '9', '-', ':', ' '] := by
  intro c hc
  simp only [pad2, List.mem_cons, List.not_mem_nil, or_false] at hc
  rcases hc with rfl | rfl <;> exact digitChar_mem_all _

/-- The characters of a four-digit field. -/
theorem pad4_subset (n : Nat) :
    ∀ c ∈ pad4 n, c ∈ ['0', '1', '2', '3', '4', '5', '6', '7', '8', '9', '-', ':', ' '] := by
  intro c hc
  simp only [pad4, List.mem_cons, List.not_mem_nil, or_false] at hc
  rcases hc with rfl | rfl | rfl | rfl <;> exact digitChar_mem_all _

/-- Every character of a canonical timestamp is a digit or one of
`'-'`, `':'`, `' '`. -/
theorem fmtChars_subset (dt : PyDateTime) :
    ∀ c ∈ fmtChars dt,
      c ∈ ['0', '1', '2', '3', '4', '5', '6', '7', '8', '9', '-', ':', ' '] := by
  intro c hc
  simp only [fmtChars] at hc
  rcases List.mem_append.mp hc with h | h
  · rcases List.mem_append.mp h with h | h
    · rcases List.mem_append.mp h with h | h
      · rcases List.mem_append.mp h with h | h
        · rcases List.mem_append.mp h with h | h
          · exact pad4_subset _ _ h
          · rcases List.mem_cons.mp h with rfl | h
            · decide
            · exact pad2_subset _ _ h
        · rcases List.mem_cons.mp h with rfl | h
          · decide
          · exact pad2_subset _ _ h
      · rcases List.mem_cons.mp h with rfl | h
        · decide
        · exact pad2_subset _ _ h
    · rcases List.mem_cons.mp h with rfl | h
      · decide
      · exact pad2_subset _ _ h
  · rcases List.mem_cons.mp h with rfl | h
    · decide
    · exact pad2_subset _ _ h

/-- A canonical timestamp has no `'+'`. -/
theorem fmtChars_no_plus (dt : PyDateTime) : (fmtChars dt).contains '+' = false := by
  rw [← Bool.not_eq_true]
  intro hc
  have hmem : '+' ∈ fmtChars dt := List.mem_of_elem_eq_true hc
  have := fmtChars_subset dt '+' hmem
  exact absurd this (by decide)

/-- A canonical timestamp has no `'T'`. -/
theorem fmtChars_no_T (dt : PyDateTime) : (fmtChars dt).contains 'T' = false := by
  rw [← Bool.not_eq_true]
  intro hc
  have hmem : 'T' ∈ fmtChars dt := List.mem_of_elem_eq_true hc
  have := fmtChars_subset dt 'T' hmem
  exact absurd this (by decide)

/-- A canonical timestamp contains `'-'`. -/
theorem fmtChars_has_dash (dt : PyDateTime) : (fmtChars dt).contains '-' = true := by
  refine List.elem_eq_true_of_mem ?_
  simp [fmtChars]

/-- A canonical timestamp contains `':'`. -/
theorem fmtChars_has_colon (dt : PyDateTime) : (fmtChars dt).contains ':' = true := by
  refine List.elem_eq_true_of_mem ?_
  simp [fmtChars]

/-- The timezone strip is the identity on a canonical timestamp. -/
theorem stripPlusChars_fmtChars (dt : PyDateTime) :
    stripPlusChars (fmtChars dt) = fmtChars dt := by
  unfold stripPlusChars
  rw [fmtChars_no_plus]
  rfl

/-- Reparsing a canonical rendering recovers the datetime. -/
theorem fromIsoChars_fmtChars (dt : PyDateTime) (h : validDateTime dt = true) :
    fromIsoChars (fmtChars dt) = some dt := by
  obtain ⟨y, mo, dy, hh, mi, ss⟩ := dt
  simp only [validDateTime, Bool.and_eq_true, decide_eq_true_eq] at h
  have hdm : daysInMonth y mo ≤ 31 := by
    unfold daysInMonth
    split_ifs <;> omega
  simp only [fmtChars, pad4, pad2, List.cons_append, List.nil_append]
  simp only [fromIsoChars,
    readDigit_digitChar (y / 1000 % 10) (by omega),
    readDigit_digitChar (y / 100 % 10) (by omega),
    readDigit_digitChar (y / 10 % 10) (by omega),
    readDigit_digitChar (y % 10) (by omega),
    readDigit_digitChar (mo / 10 % 10) (by omega),
    readDigit_digitChar (mo % 10) (by omega),
    readDigit_digitChar (dy / 10 % 10) (by omega),
    readDigit_digitChar (dy % 10) (by omega),
    readDigit_digitChar (hh / 10 % 10) (by omega),
    readDigit_digitChar (hh % 10) (by omega),
    readDigit_digitChar (mi / 10 % 10) (by omega),
    readDigit_digitChar (mi % 10) (by omega),
    readDigit_digitChar (ss / 10 % 10) (by omega),
    readDigit_digitChar (ss % 10) (by omega)]
  have ey : 1000 * (y / 1000 % 10) + 100 * (y / 100 % 10) + 10 * (y / 10 % 10) + y % 10
      = y := by omega
  have emo : 10 * (mo / 10 % 10) + mo % 10 = mo := by omega
  have edy : 10 * (dy / 10 % 10) + dy % 10 = dy := by omega
  have ehh : 10 * (hh / 10 % 10) + hh % 10 = hh := by omega
  have emi : 10 * (mi / 10 % 10) + mi % 10 = mi := by omega
  have ess : 10 * (ss / 10 % 10) + ss % 10 = ss := by omega
  simp only [ey, emo, edy, ehh, emi, ess, mkValid, validDateTime, Bool.and_eq_true,
    decide_eq_true_eq, and_self, if_true]
  exact if_pos h

/-- Dispatch lands in the ISO family and succeeds on a canonical
timestamp. -/
theorem postingParse_fmtChars (cy : Nat) (dt : PyDateTime)
    (h : validDateTime dt = true) :
    postingParse cy (fmtChars dt) = some dt := by
  unfold postingParse
  rw [fmtChars_no_T, if_neg (by simp), fmtChars_has_dash, fmtChars_has_colon]
  simp only [Bool.and_self, if_pos]
  exact fromIsoChars_fmtChars dt h

/-- **C9 (confirmed).**  `parse_posting_time` is idempotent on canonical
timestamps: for every valid datetime, parsing its
`YYYY-MM-DD HH:MM:SS` rendering returns that rendering unchanged. -/
theorem parse_posting_time_idempotent (cy : Nat) (dt : PyDateTime)
    (h : validDateTime dt = true) :
    parse_posting_time cy (strftimeSortable dt) = strftimeSortable dt := by
  have hne : strftimeSortable dt ≠ "" := by
    unfold strftimeSortable
    intro heq
    have hdata : fmtChars dt = ("" : String).data := congrArg String.data heq
    simp only [fmtChars, pad4, List.cons_append] at hdata
    exact absurd hdata (by simp [show ("" : String).data = [] from rfl])
  unfold parse_posting_time
  rw [if_neg hne]
  have htl : (strftimeSortable dt).toList = fmtChars dt := rfl
  rw [htl, stripPlusChars_fmtChars, postingParse_fmtChars cy dt h]

/-- **C9, witness.**  `"2024-03-01 10:00:00"` is the rendering of the
valid datetime `2024-03-01 10:00:00` and survives a round trip
unchanged. -/
theorem parse_posting_time_idempotent_witness :
    validDateTime ⟨2024, 3, 1, 10, 0, 0⟩ = true ∧
    strftimeSortable ⟨2024, 3, 1, 10, 0, 0⟩ = "2024-03-01 10:00:00" ∧
    parse_posting_time 2024 (strftimeSortable ⟨2024, 3, 1, 10, 0, 0⟩) =
      strftimeSortable ⟨2024, 3, 1, 10, 0, 0⟩ :=
  ⟨by decide, by decide,
    parse_posting_time_idempotent 2024 ⟨2024, 3, 1, 10, 0, 0⟩ (by decide)⟩

/-!
## `sheets_manager.py` — `generate_kbb_lookup_url`

The KBB link builder: a year in `[1990, 2029]` (note: narrower than the
`[1970, 2029]` window of `_extract_year`), the same make list as
`_extract_make`, a crude model guess, and `urllib.parse.quote`
percent-encoding (default `safe='/'`; UTF-8 bytes, uppercase hex).  The
function's `try` body cannot raise (every indexing is guarded), so the
`except` fallback is dead and the function is total.
-/

/-- The make loop of `generate_kbb_lookup_url`: same scan as
`_extract_make` but with `""` for "not found". -/
def kbbMake (title : String) : String :=
  ((common_makes.find? (fun mk => pyIn (pyLower mk) (pyLower title))).map
    canonicalizeMake).getD ""

/-- `re.sub(r'(\$[\d,]+|\d{4}|\(|\))', '', ·)`: delete dollar amounts,
any four consecutive digits, and parentheses, scanning left to right. -/
def kbbSub : List Char → List Char
  | [] => []
  | '$' :: rest =>
    if (rest.takeWhile fun c => c.isDigit || c = ',').isEmpty then
      '$' :: kbbSub rest
    else kbbSub (rest.dropWhile fun c => c.isDigit || c = ',')
  | '(' :: rest => kbbSub rest
  | ')' :: rest => kbbSub rest
  | c1 :: c2 :: c3 :: c4 :: rest =>
    if c1.isDigit && c2.isDigit && c3.isDigit && c4.isDigit then kbbSub rest
    else c1 :: kbbSub (c2 :: c3 :: c4 :: rest)
  | c :: rest => c :: kbbSub rest
termination_by cs => cs.length
decreasing_by
  all_goals simp_wf
  all_goals first
    | omega
    | (have h : (List.dropWhile (fun c => c.isDigit || decide (c = ',')) rest).length ≤
          rest.length := (List.dropWhile_sublist _).length_le
       omega)

/-- The model guess of `generate_kbb_lookup_url`: requires the make to
occur **case-sensitively** in the title; takes the text after the make
(located case-insensitively), strips it, deletes prices/years/parens,
strips again, and keeps the first word (or `""`). -/
def kbbModel (title mk : String) : String :=
  if mk ≠ "" ∧ pyIn mk title = true then
    match strFind (pyLower title).toList (pyLower mk).toList with
    | some idx =>
      match pySplit (pyStripChars (kbbSub (pyStripChars
          (title.toList.drop (idx + mk.toList.length))))) with
      | [] => ""
      | w :: _ => String.mk w
    | none => ""
  else ""

/-- UTF-8 bytes of a code point. -/
def utf8Bytes (n : Nat) : List Nat :=
  if n < 128 then [n]
  else if n < 2048 then [192 + n / 64, 128 + n % 64]
  else if n < 65536 then [224 + n / 4096, 128 + n / 64 % 64, 128 + n % 64]
  else [240 + n / 262144, 128 + n / 4096 % 64, 128 + n / 64 % 64, 128 + n % 64]

/-- Uppercase hexadecimal digit. -/
def hexDigitChar (n : Nat) : Char :=
  if n < 10 then Char.ofNat (48 + n) else Char.ofNat (55 + min n 15)

/-- `urllib.parse.quote` on one character (default safe set `'/'` plus
the always-safe letters, digits and `_.-~`). -/
def pyQuoteChar (c : Char) : List Char :=
  if c.isAlphanum || c = '_' || c = '.' || c = '-' || c = '~' || c = '/' then [c]
  else List.flatten ((utf8Bytes c.toNat).map
    (fun b => ['%', hexDigitChar (b / 16), hexDigitChar (b % 16)]))

/-- `urllib.parse.quote(s)`. -/
def pyQuote (s : String) : String :=
  String.mk (List.flatten (s.toList.map pyQuoteChar))

/-- `generate_kbb_lookup_url`. -/
def generate_kbb_lookup_url (title : String) : String :=
  match reSearchYear 1990 2029 none title.toList with
  | some y =>
    if kbbMake title ≠ "" then
      if kbbModel title (kbbMake title) ≠ "" then
        "https://www.kbb.com/cars-for-sale/year-" ++ pyQuote (Nat.repr y) ++
          "/make-" ++ pyQuote (pyLower (kbbMake title)) ++
          "/model-" ++ pyQuote (pyLower (kbbModel title (kbbMake title))) ++ "/"
      else
        "https://www.kbb.com/cars-for-sale/year-" ++ pyQuote (Nat.repr y) ++
          "/make-" ++ pyQuote (pyLower (kbbMake title)) ++ "/"
    else
      "https://www.kbb.com/cars-for-sale/all?search=" ++
        pyQuote (pyReplaceDel ',' (pyReplaceDel '$' title))
  | none =>
    "https://www.kbb.com/cars-for-sale/all?search=" ++
      pyQuote (pyReplaceDel ',' (pyReplaceDel '$' title))

/-!  ### Claim C10 -/

/-- `(a ++ b).data` distributes. -/
theorem dataAppend (a b : String) : (a ++ b).data = a.data ++ b.data := rfl

/-- **C10 (confirmed).**  For every title, `generate_kbb_lookup_url`
returns (without raising — it is total) a URL beginning with
`https://www.kbb.com/`; whenever the title holds no standalone year in
`[1990, 2029]` or no known make, the result is exactly the search
fallback `https://www.kbb.com/cars-for-sale/all?search=` plus the
percent-encoded title with `'$'` and `','` removed.  The year window
starts at 1990 — strictly narrower than `_extract_year`'s 1970 window,
as `1985` witnesses. -/
theorem generate_kbb_lookup_url_spec (title : String) :
    ("https://www.kbb.com/".toList <+: (generate_kbb_lookup_url title).toList) ∧
    ((reSearchYear 1990 2029 none title.toList = none ∨ kbbMake title = "") →
      generate_kbb_lookup_url title =
        "https://www.kbb.com/cars-for-sale/all?search=" ++
          pyQuote (pyReplaceDel ',' (pyReplaceDel '$' title))) ∧
    (extract_year "1985 Ford Mustang" = some 1985 ∧
      reSearchYear 1990 2029 none ("1985 Ford Mustang").toList = none) := by
  refine ⟨?_, ?_, by decide, by decide⟩
  · unfold generate_kbb_lookup_url
    cases hy : reSearchYear 1990 2029 none title.toList with
    | none =>
      simp only [String.toList, dataAppend, List.append_assoc]
      exact List.IsPrefix.trans (by decide) (List.prefix_append _ _)
    | some y =>
      split_ifs with h1 h2 <;>
        simp only [String.toList, dataAppend, List.append_assoc] <;>
        exact List.IsPrefix.trans (by decide) (List.prefix_append _ _)
  · intro hcond
    unfold generate_kbb_lookup_url
    rcases hcond with hy | hmk
    · rw [hy]
    · cases hy : reSearchYear 1990 2029 none title.toList with
      | none => rfl
      | some y =>
        dsimp only
        rw [if_neg (fun hco => hco hmk)]

/-- **C10, witness.**  `"hello"` has no year and no make: the fallback
URL is produced, and it begins with `https://www.kbb.com/`. -/
theorem generate_kbb_lookup_url_spec_witness :
    generate_kbb_lookup_url "hello" =
      "https://www.kbb.com/cars-for-sale/all?search=" ++
        pyQuote (pyReplaceDel ',' (pyReplaceDel '$' "hello")) ∧
    ("https://www.kbb.com/".toList <+: (generate_kbb_lookup_url "hello").toList) :=
  ⟨(generate_kbb_lookup_url_spec "hello").2.1 (Or.inl (by decide)),
   (generate_kbb_lookup_url_spec "hello").1⟩
